import Mathlib

/-!
Verification of the OpenCode reflection plugin (`src/reflection.ts`, the
revision with per-task attempt keys, severity policy and abort tracking).

The plugin's pure logic (session classification, transcript extraction,
human-message counting, attempt-ledger keys, verdict policy) is embedded
directly; the host client (OpenCode RPC surface) is modelled as an oracle
supplying the result of each RPC call, where a thrown JS exception is an
`Except.error`.  The `session.idle` / `session.error` handler and
`runReflection` are embedded as state-passing functions producing the new
plugin state together with the trace of outward actions (toasts, prompt
submissions, judge-session management).
-/

namespace Reflection

/-- Substring test helper: does the char list start with the pattern. -/
def leadsWith : List Char → List Char → Bool
  | _, [] => true
  | [], _ :: _ => false
  | c :: cs, p :: ps => c == p && leadsWith cs ps

/-- Substring containment on char lists (JS `String.prototype.includes`). -/
def containsSubL (pat : List Char) : List Char → Bool
  | [] => pat.isEmpty
  | c :: cs => leadsWith (c :: cs) pat || containsSubL pat cs

/-- JS `s.includes(pat)`. -/
def strContains (s pat : String) : Bool :=
  containsSubL pat.data s.data

/-- JS `s.toLowerCase()` (ASCII-faithful). -/
def strToLower (s : String) : String :=
  String.mk (s.data.map Char.toLower)

/-- JS `x || d` for a possibly-absent string `x`: absent or empty falls back. -/
def jsOr : Option String → String → String
  | some s, d => if s = "" then d else s
  | none, d => d

/-- `const MAX_ATTEMPTS = 3`. -/
def MAX_ATTEMPTS : Nat := 3

inductive Role where
  | user
  | assistant
deriving DecidableEq

/-- `msg.info.error`: `{name?, data?.message, message?}` as used by the code. -/
structure ErrInfo where
  name : Option String
  dataMessage : Option String
  message : Option String
deriving DecidableEq

structure MsgInfo where
  role : Option Role
  error : Option ErrInfo
deriving DecidableEq

/-- A message part.  For `tool` parts, `input` stands for
`JSON.stringify(part.state?.input || \x7b\x7d)` (the already-serialized input). -/
inductive Part where
  | text (t : String)
  | tool (name : String) (input : String)
  | other
deriving DecidableEq

structure Message where
  info : Option MsgInfo
  parts : List Part
deriving DecidableEq

def isUser (m : Message) : Bool :=
  match m.info with
  | some i => i.role = some Role.user
  | none => false

def isAssistant (m : Message) : Bool :=
  match m.info with
  | some i => i.role = some Role.assistant
  | none => false

def errorOf (m : Message) : Option ErrInfo :=
  match m.info with
  | some i => i.error
  | none => none

/-- A JS value delivered in `event.properties.sessionID`: either a string or
some non-string value with its truthiness. -/
inductive JsVal where
  | jstr (s : String)
  | nonStr (truthy : Bool)
deriving DecidableEq

def truthyJs : JsVal → Bool
  | .jstr s => s ≠ ""
  | .nonStr t => t

/-- Plugin state: the five module-level maps/sets of the plugin closure. -/
structure PState where
  attempts : List (String × Nat)
  lastReflectedMsgCount : List (String × Nat)
  activeReflections : List String
  abortedSessions : List JsVal
  judgeSessionIds : List String
deriving DecidableEq

def initState : PState := ⟨[], [], [], [], []⟩

/-- JS `Set.add`. -/
def insertSet (x : String) (s : List String) : List String :=
  if x ∈ s then s else x :: s

/-- JS `Set.delete`. -/
def removeSet (x : String) (s : List String) : List String :=
  s.filter (fun y => y ≠ x)

def insertJs (x : JsVal) (s : List JsVal) : List JsVal :=
  if x ∈ s then s else x :: s

/-- JS `Map.set`. -/
def setEntry (k : String) (v : Nat) : List (String × Nat) → List (String × Nat)
  | [] => [(k, v)]
  | (k', v') :: rest => if k' = k then (k, v) :: rest else (k', v') :: setEntry k v rest

/-- JS `Map.delete`. -/
def eraseEntry (k : String) (m : List (String × Nat)) : List (String × Nat) :=
  m.filter (fun p => p.1 ≠ k)

/-- JS `map.get(k) || 0`. -/
def lookupD (m : List (String × Nat)) (k : String) : Nat :=
  (m.lookup k).getD 0

/-- `isJudgeSession`: known judge id, or any text part contains the judge
prompt marker `"TASK VERIFICATION"`. -/
def partHasJudgeMarker (p : Part) : Bool :=
  match p with
  | Part.text t => strContains t "TASK VERIFICATION"
  | _ => false

def isJudgeSession (judgeIds : List String) (sessionId : String) (messages : List Message) : Bool :=
  decide (sessionId ∈ judgeIds) || messages.any (fun m => m.parts.any partHasJudgeMarker)

/-- `error.data?.message || error.message || ""`. -/
def errMsgText (e : ErrInfo) : String :=
  jsOr e.dataMessage (jsOr e.message "")

/-- An assistant message carrying an abort-style error:
`error.name === "MessageAbortedError"` or the error message text
case-insensitively contains `"abort"`. -/
def msgHasAbortError (m : Message) : Bool :=
  isAssistant m &&
    (match errorOf m with
     | some e =>
         (e.name == some "MessageAbortedError") ||
           strContains (strToLower (errMsgText e)) "abort"
     | none => false)

/-- `wasSessionAborted`: fast path on the sticky set, else content detection;
on first detection the id is memoized.  Returns the result together with the
(possibly grown) aborted set. -/
def wasSessionAborted (aborted : List JsVal) (sessionId : String) (messages : List Message) :
    Bool × List JsVal :=
  if JsVal.jstr sessionId ∈ aborted then (true, aborted)
  else if messages.any msgHasAbortError then (true, insertJs (JsVal.jstr sessionId) aborted)
  else (false, aborted)

/-- A user text part that counts as genuine human input: non-empty text not
carrying the feedback marker `"## Reflection:"`. -/
def isNonFeedbackText (p : Part) : Bool :=
  match p with
  | Part.text t => t ≠ "" && !(strContains t "## Reflection:")
  | _ => false

/-- `countHumanMessages`: user messages having some genuine text part. -/
def countHumanMessages : List Message → Nat
  | [] => 0
  | m :: rest =>
      (if isUser m && m.parts.any isNonFeedbackText then 1 else 0) + countHumanMessages rest

structure Extracted where
  task : String
  result : String
  tools : String
deriving DecidableEq

/-- First non-empty text part of a user message that does not carry the
feedback marker (the `continue` in the source skips marked parts). -/
def firstTaskText : List Part → Option String
  | [] => none
  | Part.text t :: rest =>
      if t = "" then firstTaskText rest
      else if strContains t "## Reflection:" then firstTaskText rest
      else some t
  | _ :: rest => firstTaskText rest

/-- Tool-call summaries `tool + ": " + stringified-input.slice(0,200)`. -/
def toolSummaries (parts : List Part) : List String :=
  parts.foldl
    (fun acc p =>
      match p with
      | Part.tool name input => acc ++ [name ++ ": " ++ input.take 200]
      | _ => acc) []

/-- The running `result` variable: each non-empty assistant text part
overwrites it. -/
def lastResultText (parts : List Part) (acc : String) : String :=
  parts.foldl
    (fun acc p =>
      match p with
      | Part.text t => if t ≠ "" then t else acc
      | _ => acc) acc

def extractLoop : List Message → String → String → List String → String × String × List String
  | [], task, result, tools => (task, result, tools)
  | m :: rest, task, result, tools =>
      let task' := if isUser m then (firstTaskText m.parts).getD task else task
      let tools' := tools ++ toolSummaries m.parts
      let result' := if isAssistant m then lastResultText m.parts result else result
      extractLoop rest task' result' tools'

/-- `extractTaskAndResult`: last genuine user text as task, last assistant
text as result, trailing 10 tool summaries joined by newline; `null` when
task or result is empty. -/
def extractTaskAndResult (messages : List Message) : Option Extracted :=
  let r := extractLoop messages "" "" []
  if r.1 = "" || r.2.1 = "" then none
  else some ⟨r.1, r.2.1, String.intercalate "\n" (r.2.2.drop (r.2.2.length - 10))⟩

/-- `getAttemptKey`. -/
def getAttemptKey (sessionId : String) (humanMsgCount : Nat) : String :=
  sessionId ++ ":" ++ toString humanMsgCount

/-- The regex `/\x7b[\s\S]*\x7d/`: substring from the first opening brace to
the last closing brace, when the latter comes after the former. -/
def jsonMatch (s : String) : Option String :=
  let cs := s.data
  match List.findIdx? (fun c => c == Char.ofNat 123) cs with
  | none => none
  | some i =>
      match List.findIdx? (fun c => c == Char.ofNat 125) cs.reverse with
      | none => none
      | some rj =>
          let j := cs.length - 1 - rj
          if i < j then some (String.mk ((cs.drop i).take (j - i + 1))) else none

/-- Parsed judge verdict.  `complete` is the JS truthiness of the field;
optional fields are `none` when absent. -/
structure Verdict where
  complete : Bool
  severity : Option String
  feedback : Option String
  missing : Option (List String)
  next_actions : Option (List String)
deriving DecidableEq

/-- `const severity = verdict.severity || "MEDIUM"`. -/
def severityOf (v : Verdict) : String :=
  jsOr v.severity "MEDIUM"

/-- `const isBlocker = severity === "BLOCKER"`. -/
def isBlockerOf (v : Verdict) : Bool :=
  severityOf v == "BLOCKER"

/-- `const isComplete = verdict.complete && !isBlocker`. -/
def effectiveComplete (v : Verdict) : Bool :=
  v.complete && !(isBlockerOf v)

def bullets (l : List String) : String :=
  String.intercalate "\n" (l.map (fun m => "- " ++ m))

/-- `verdict.missing?.length ? "\n### Missing\n..." : ""`. -/
def missingSection (v : Verdict) : String :=
  match v.missing with
  | some l => if l.length ≠ 0 then "\n### Missing\n" ++ bullets l else ""
  | none => ""

/-- `verdict.next_actions?.length ? "\n### Next Actions\n..." : ""`. -/
def nextActionsSection (v : Verdict) : String :=
  match v.next_actions with
  | some l => if l.length ≠ 0 then "\n### Next Actions\n" ++ bullets l else ""
  | none => ""

/-- The feedback chat message injected on an incomplete verdict. -/
def incompleteFeedback (v : Verdict) (attemptCount : Nat) (severity : String) : String :=
  "## Reflection: Task Incomplete (" ++ toString (attemptCount + 1) ++ "/" ++
    toString MAX_ATTEMPTS ++ ") [" ++ severity ++ "]\n\n" ++
    jsOr v.feedback "Please review and complete the task." ++
    missingSection v ++ nextActionsSection v ++
    "\n\nPlease address the above and continue."

/-- Success toast text (`severity === "NONE" ? ... : ...`). -/
def completeToastMsg (v : Verdict) : String :=
  if severityOf v == "NONE" then "Task complete ✓"
  else "Task complete ✓ (" ++ severityOf v ++ ")"

/-- The judge verification prompt (template literal in `runReflection`). -/
def buildPrompt (agents : String) (ex : Extracted) : String :=
  "TASK VERIFICATION - Release Manager Protocol\n\nYou are a release manager with risk ownership. Evaluate whether the task is complete and ready for release.\n\n" ++
    (if agents ≠ "" then "## Project Instructions\n" ++ agents.take 1500 ++ "\n" else "") ++
    "## Original Task\n" ++ ex.task ++ "\n\n## Tools Used\n" ++
    (if ex.tools ≠ "" then ex.tools else "(none)") ++
    "\n\n## Agent\x27s Response\n" ++ ex.result.take 2000 ++
    "\n\n---\n\n## Evaluation Rules\n\n### Severity Levels\n- BLOCKER: security, auth, billing/subscription, data loss, E2E broken, prod health broken → complete MUST be false\n- HIGH: major functionality degraded, CI red without approved waiver\n- MEDIUM: partial degradation or uncertain coverage\n- LOW: cosmetic / non-impacting\n- NONE: no issues\n\n### Hard Requirements (must ALL be met for complete:true)\n1. All explicitly requested functionality implemented\n2. Tests run and pass (if tests were requested or exist)\n3. Build/compile succeeds (if applicable)\n4. No unhandled errors in output\n\n### Evidence Requirements\nEvery claim needs evidence. Reject claims like \"ready\", \"verified\", \"working\", \"fixed\" without:\n- Actual command output showing success\n- Test name + result\n- File changes made\n\n### Flaky Test Protocol\nIf a test is called \"flaky\" or \"unrelated\", require at least ONE of:\n- Rerun with pass (show output)\n- Quarantine/skip with tracking ticket\n- Replacement test validating same requirement\n- Stabilization fix applied\nWithout mitigation → severity >= HIGH, complete: false\n\n### Waiver Protocol\nIf a required gate failed but agent claims ready, response MUST include:\n- Explicit waiver statement (\"shipping with known issue X\")\n- Impact scope (\"affects Y users/flows\")\n- Mitigation/rollback plan\n- Follow-up tracking (ticket/issue reference)\nWithout waiver details → complete: false\n\n### Temporal Consistency\nReject if:\n- Readiness claimed before verification ran\n- Later output contradicts earlier \"done\" claim\n- Failures downgraded after-the-fact without new evidence\n\n---\n\nReply with JSON only (no other text):\n\x7b\n  \"complete\": true/false,\n  \"severity\": \"NONE|LOW|MEDIUM|HIGH|BLOCKER\",\n  \"feedback\": \"brief explanation of verdict\",\n  \"missing\": [\"list of missing required steps or evidence\"],\n  \"next_actions\": [\"concrete commands or checks to run\"]\n\x7d"

/-- A thrown JS exception surfaced by a host RPC call. -/
abbrev HostErr := String

/-- The host client as seen by one reflection pass.  Each field is the
result of the corresponding RPC (an `Except.error` models a throw).
`judgeResponse` abstracts `waitForResponse`: that poll loop swallows fetch
errors and is bounded by the 180s budget, so it totals to either the first
completed assistant text (`some`) or a timeout (`none`).  `parseJson`
abstracts `JSON.parse` on the regex-matched substring.  `agentsFile`
abstracts `getAgentsFile`, which catches all read failures and falls back
to the empty string. -/
structure Oracle where
  getMessages : String → Except HostErr (Option (List Message))
  createSession : Except HostErr (Option String)
  promptAsync : String → String → Except HostErr Unit
  judgeResponse : String → Option String
  parseJson : String → Except HostErr Verdict
  deleteSession : String → Except HostErr Unit
  agentsFile : String

/-- Outward-visible effects of a pass, in program order. -/
inductive Action where
  | toast (message : String) (variant : String)
  | createJudge
  | promptTo (sessionId : String) (text : String)
  | saveReflection (sessionId : String)
  | deleteJudge (sessionId : String)
deriving DecidableEq

/-- `cleanupJudgeSession`: best-effort delete (failures caught and logged),
then the judge id is removed from the guard set in a `finally`. -/
def cleanupJudgeSession (st : PState) (judgeId : String) : PState × List Action :=
  ({ st with judgeSessionIds := removeSet judgeId st.judgeSessionIds },
   [Action.deleteJudge judgeId])

/-- The inner `try` of `runReflection`, from the prompt build to the verdict
actions.  The first component is `Except.error e` when an exception escapes
this block (to be caught by the outer `catch` after the `finally` cleanup). -/
def judgePhase (o : Oracle) (st : PState) (sessionId : String) (humanMsgCount : Nat)
    (attemptKey : String) (attemptCount : Nat) (ex : Extracted) (judgeId : String) :
    Except HostErr Unit × PState × List Action :=
  let prompt := buildPrompt o.agentsFile ex
  match o.promptAsync judgeId prompt with
  | .error e => (.error e, st, [Action.promptTo judgeId prompt])
  | .ok _ =>
    match o.judgeResponse judgeId with
    | none =>
        (.ok (),
         { st with lastReflectedMsgCount := setEntry sessionId humanMsgCount st.lastReflectedMsgCount },
         [Action.promptTo judgeId prompt])
    | some response =>
      match jsonMatch response with
      | none =>
          (.ok (),
           { st with lastReflectedMsgCount := setEntry sessionId humanMsgCount st.lastReflectedMsgCount },
           [Action.promptTo judgeId prompt])
      | some jsonStr =>
        match o.parseJson jsonStr with
        | .error e => (.error e, st, [Action.promptTo judgeId prompt])
        | .ok verdict =>
          if effectiveComplete verdict then
            (.ok (),
             { st with
                lastReflectedMsgCount := setEntry sessionId humanMsgCount st.lastReflectedMsgCount,
                attempts := eraseEntry attemptKey st.attempts },
             [Action.promptTo judgeId prompt, Action.saveReflection sessionId,
              Action.toast (completeToastMsg verdict) "success"])
          else
            let fbText := incompleteFeedback verdict attemptCount (severityOf verdict)
            let acts :=
              [Action.promptTo judgeId prompt, Action.saveReflection sessionId,
               Action.toast
                 (severityOf verdict ++ ": Incomplete (" ++ toString (attemptCount + 1) ++ "/" ++
                   toString MAX_ATTEMPTS ++ ")")
                 (if isBlockerOf verdict then "error" else "warning"),
               Action.promptTo sessionId fbText]
            let st' := { st with attempts := setEntry attemptKey (attemptCount + 1) st.attempts }
            match o.promptAsync sessionId fbText with
            | .error e => (.error e, st', acts)
            | .ok _ => (.ok (), st', acts)

/-- The body of the outer `try` of `runReflection` (everything between the
in-flight guard and the outer `catch`/`finally`). -/
def runReflectionBody (o : Oracle) (st : PState) (sessionId : String) :
    Except HostErr Unit × PState × List Action :=
  match o.getMessages sessionId with
  | .error e => (.error e, st, [])
  | .ok none => (.ok (), st, [])
  | .ok (some messages) =>
    if messages.length < 2 then (.ok (), st, [])
    else
      let ab := wasSessionAborted st.abortedSessions sessionId messages
      let st := { st with abortedSessions := ab.2 }
      if ab.1 then (.ok (), st, [])
      else if isJudgeSession st.judgeSessionIds sessionId messages then (.ok (), st, [])
      else
        let humanMsgCount := countHumanMessages messages
        if humanMsgCount = 0 then (.ok (), st, [])
        else if humanMsgCount ≤ lookupD st.lastReflectedMsgCount sessionId then (.ok (), st, [])
        else
          let attemptKey := getAttemptKey sessionId humanMsgCount
          let attemptCount := lookupD st.attempts attemptKey
          if attemptCount ≥ MAX_ATTEMPTS then
            (.ok (),
             { st with lastReflectedMsgCount := setEntry sessionId humanMsgCount st.lastReflectedMsgCount },
             [Action.toast ("Max attempts (" ++ toString MAX_ATTEMPTS ++ ") reached") "warning"])
          else
            match extractTaskAndResult messages with
            | none => (.ok (), st, [])
            | some ex =>
              match o.createSession with
              | .error e => (.error e, st, [Action.createJudge])
              | .ok none => (.ok (), st, [Action.createJudge])
              | .ok (some judgeId) =>
                let st := { st with judgeSessionIds := insertSet judgeId st.judgeSessionIds }
                let r := judgePhase o st sessionId humanMsgCount attemptKey attemptCount ex judgeId
                let cl := cleanupJudgeSession r.2.1 judgeId
                (r.1, cl.1, Action.createJudge :: (r.2.2 ++ cl.2))

/-- `runReflection`: in-flight guard, body, outer `catch \x7b\x7d` (errors
swallowed) and `finally` removing the session from the in-flight set.  The
returned `Except` is the outcome crossing the function boundary; the
unconditional `.ok` is exactly the source's catch-all. -/
def runReflection (o : Oracle) (st : PState) (sessionId : String) :
    Except HostErr (PState × List Action) :=
  if sessionId ∈ st.activeReflections then .ok (st, [])
  else
    let st1 := { st with activeReflections := insertSet sessionId st.activeReflections }
    let r := runReflectionBody o st1 sessionId
    .ok ({ r.2.1 with activeReflections := removeSet sessionId r.2.1.activeReflections }, r.2.2)

structure EventProps where
  sessionID : Option JsVal
  error : Option ErrInfo
deriving DecidableEq

inductive Event where
  | sessionError (props : Option EventProps)
  | sessionIdle (props : Option EventProps)
  | other
deriving DecidableEq

/-- The plugin's `event` handler. -/
def handleEvent (o : Oracle) (st : PState) (ev : Event) :
    Except HostErr (PState × List Action) :=
  match ev with
  | .sessionError props =>
    match props with
    | none => .ok (st, [])
    | some p =>
      match p.sessionID, p.error with
      | some v, some err =>
          if truthyJs v ∧ err.name = some "MessageAbortedError" then
            .ok ({ st with abortedSessions := insertJs v st.abortedSessions }, [])
          else .ok (st, [])
      | _, _ => .ok (st, [])
  | .sessionIdle props =>
    match props with
    | none => .ok (st, [])
    | some p =>
      match p.sessionID with
      | some (JsVal.jstr sid) =>
          if sid = "" then .ok (st, [])
          else if JsVal.jstr sid ∈ st.abortedSessions then .ok (st, [])
          else if sid ∈ st.judgeSessionIds then .ok (st, [])
          else runReflection o st sid
      | _ => .ok (st, [])
  | .other => .ok (st, [])

/-- The pass result as a plain pair (the error case is unreachable, see the
no-exception theorem). -/
def runOutcome (o : Oracle) (st : PState) (sessionId : String) : PState × List Action :=
  match runReflection o st sessionId with
  | .ok p => p
  | .error _ => (st, [])

/-- The post-event state as a plain value (same remark). -/
def stepState (o : Oracle) (st : PState) (ev : Event) : PState :=
  match handleEvent o st ev with
  | .ok p => p.1
  | .error _ => st

def runEvents : List (Oracle × Event) → PState → PState
  | [], st => st
  | (o, ev) :: rest, st => runEvents rest (stepState o st ev)

def isToastAct : Action → Bool
  | Action.toast _ _ => true
  | _ => false

def promptToPred (sid : String) : Action → Bool
  | Action.promptTo s _ => s == sid
  | _ => false

def isCreateJudge : Action → Bool
  | Action.createJudge => true
  | _ => false

/-- All attempt counters are within the cap. -/
def attemptsBounded (st : PState) : Prop :=
  ∀ p ∈ st.attempts, p.2 ≤ MAX_ATTEMPTS

/-- The path conditions under which one reflection pass reaches the judge
evaluation: all guards pass, the transcript is reflectable, the attempt cap
is not hit, judge session creation succeeds and the judge prompt submission
does not throw. -/
def reachesJudge (o : Oracle) (st : PState) (sessionId : String) (msgs : List Message)
    (ex : Extracted) (judgeId : String) : Prop :=
  sessionId ∉ st.activeReflections ∧
  o.getMessages sessionId = .ok (some msgs) ∧
  ¬ msgs.length < 2 ∧
  wasSessionAborted st.abortedSessions sessionId msgs = (false, st.abortedSessions) ∧
  isJudgeSession st.judgeSessionIds sessionId msgs = false ∧
  countHumanMessages msgs ≠ 0 ∧
  ¬ countHumanMessages msgs ≤ lookupD st.lastReflectedMsgCount sessionId ∧
  ¬ lookupD st.attempts (getAttemptKey sessionId (countHumanMessages msgs)) ≥ MAX_ATTEMPTS ∧
  extractTaskAndResult msgs = some ex ∧
  o.createSession = .ok (some judgeId) ∧
  o.promptAsync judgeId (buildPrompt o.agentsFile ex) = .ok ()

/-- The path conditions up to the attempt-cap check only (used for the
cap-reached branch). -/
def reachesCapCheck (o : Oracle) (st : PState) (sessionId : String) (msgs : List Message) : Prop :=
  sessionId ∉ st.activeReflections ∧
  o.getMessages sessionId = .ok (some msgs) ∧
  ¬ msgs.length < 2 ∧
  wasSessionAborted st.abortedSessions sessionId msgs = (false, st.abortedSessions) ∧
  isJudgeSession st.judgeSessionIds sessionId msgs = false ∧
  countHumanMessages msgs ≠ 0 ∧
  ¬ countHumanMessages msgs ≤ lookupD st.lastReflectedMsgCount sessionId

/- Concrete fixtures used by witnesses and counterexamples. -/

def mkUserMsg (t : String) : Message := ⟨some ⟨some Role.user, none⟩, [Part.text t]⟩

def mkAssistantMsg (t : String) : Message := ⟨some ⟨some Role.assistant, none⟩, [Part.text t]⟩

def sampleMsgs : List Message :=
  [mkUserMsg "write a function that adds two numbers", mkAssistantMsg "done, see add.py"]

def completeVerdict : Verdict := ⟨true, some "NONE", some "function added and verified", none, none⟩

def incompleteVerdict : Verdict :=
  ⟨false, some "MEDIUM", some "no test evidence shown", some ["test run output"], some ["run tests"]⟩

def baseOracle : Oracle :=
  ⟨fun _ => .ok (some sampleMsgs), .ok (some "judge-1"), fun _ _ => .ok (),
   fun _ => some "\x7b\"complete\": true, \"severity\": \"NONE\"\x7d",
   fun _ => .ok completeVerdict, fun _ => .ok (), ""⟩

def timeoutOracle : Oracle := { baseOracle with judgeResponse := fun _ => none }

def parseErrOracle : Oracle := { baseOracle with judgeResponse := fun _ => some "no json here" }

def incompleteOracle : Oracle := { baseOracle with parseJson := fun _ => .ok incompleteVerdict }

def throwOracle : Oracle := { baseOracle with getMessages := fun _ => .error "boom" }

def abortErrMsg : Message :=
  ⟨some ⟨some Role.assistant, some ⟨some "MessageAbortedError", none, none⟩⟩, [Part.text "x"]⟩

def abortMsgs : List Message := [mkUserMsg "do something", abortErrMsg]

/- Helper lemmas about the map/set primitives. -/

theorem lookup_setEntry_self (k : String) (v : Nat) (m : List (String × Nat)) :
    List.lookup k (setEntry k v m) = some v := by
  induction m with
  | nil => simp [setEntry, List.lookup]
  | cons p rest ih =>
      obtain ⟨k', v'⟩ := p
      by_cases h : k' = k
      · simp [setEntry, h, List.lookup]
      · have hbeq : (k == k') = false := beq_eq_false_iff_ne.mpr (fun e => h e.symm)
        simp [setEntry, h, List.lookup, hbeq, ih]

theorem lookup_eraseEntry_self (k : String) (m : List (String × Nat)) :
    List.lookup k (eraseEntry k m) = none := by
  induction m with
  | nil => rfl
  | cons p rest ih =>
      obtain ⟨k', v'⟩ := p
      by_cases h : k' = k
      · simpa [eraseEntry, h] using ih
      · have hbeq : (k == k') = false := beq_eq_false_iff_ne.mpr (fun e => h e.symm)
        unfold eraseEntry at ih ⊢
        simp [List.filter_cons, h, List.lookup, hbeq, ih]
        intro a b _ hak e
        exact hak e.symm

theorem mem_setEntry {p : String × Nat} {k : String} {v : Nat} {m : List (String × Nat)}
    (h : p ∈ setEntry k v m) : p = (k, v) ∨ p ∈ m := by
  induction m with
  | nil => simpa [setEntry] using h
  | cons q rest ih =>
      obtain ⟨k', v'⟩ := q
      by_cases hk : k' = k
      · simp [setEntry, hk] at h
        rcases h with h | h
        · exact Or.inl h
        · exact Or.inr (List.mem_cons_of_mem _ h)
      · simp [setEntry, hk] at h
        rcases h with h | h
        · exact Or.inr (by simp [h])
        · rcases ih h with h' | h'
          · exact Or.inl h'
          · exact Or.inr (List.mem_cons_of_mem _ h')

theorem mem_eraseEntry {p : String × Nat} {k : String} {m : List (String × Nat)}
    (h : p ∈ eraseEntry k m) : p ∈ m :=
  (List.mem_filter.mp h).1

theorem lookup_mem {k : String} {v : Nat} {m : List (String × Nat)}
    (h : List.lookup k m = some v) : (k, v) ∈ m := by
  induction m with
  | nil => simp [List.lookup] at h
  | cons q rest ih =>
      obtain ⟨k', v'⟩ := q
      by_cases hk : k' = k
      · subst hk
        simp [List.lookup] at h
        simp [h]
      · have hbeq : (k == k') = false := beq_eq_false_iff_ne.mpr (fun e => hk e.symm)
        simp [List.lookup, hbeq] at h
        exact List.mem_cons_of_mem _ (ih h)

theorem self_mem_insertSet (x : String) (s : List String) : x ∈ insertSet x s := by
  unfold insertSet
  by_cases h : x ∈ s <;> simp [h]

theorem mem_insertJs {y x : JsVal} {s : List JsVal} (h : y ∈ s) : y ∈ insertJs x s := by
  unfold insertJs
  by_cases hx : x ∈ s <;> simp [hx, h]

theorem self_mem_insertJs (x : JsVal) (s : List JsVal) : x ∈ insertJs x s := by
  unfold insertJs
  by_cases h : x ∈ s <;> simp [h]

theorem removeSet_of_not_mem {x : String} {s : List String} (h : x ∉ s) :
    removeSet x s = s := by
  unfold removeSet
  exact List.filter_eq_self.mpr (fun a ha => by
    simp only [decide_eq_true_eq]
    intro he
    exact h (he ▸ ha))

theorem removeSet_insertSet {x : String} {s : List String} (h : x ∉ s) :
    removeSet x (insertSet x s) = s := by
  unfold insertSet
  rw [if_neg h]
  unfold removeSet
  rw [List.filter_cons]
  simp only [ne_eq, not_true_eq_false, decide_False, Bool.false_eq_true, if_false]
  exact removeSet_of_not_mem h

/- Helper lemmas about substring containment. -/

theorem leadsWith_nil_pat (l : List Char) : leadsWith l [] = true := by
  cases l <;> rfl

theorem leadsWith_append (p r : List Char) : leadsWith (p ++ r) p = true := by
  induction p with
  | nil => exact leadsWith_nil_pat r
  | cons c cs ih => simp [leadsWith, ih]

theorem containsSubL_nil_pat (l : List Char) : containsSubL [] l = true := by
  cases l with
  | nil => rfl
  | cons c cs => simp [containsSubL, leadsWith_nil_pat]

theorem containsSubL_self_append (p r : List Char) : containsSubL p (p ++ r) = true := by
  cases p with
  | nil => exact containsSubL_nil_pat r
  | cons c cs =>
      show (leadsWith ((c :: cs) ++ r) (c :: cs) || containsSubL (c :: cs) (cs ++ r)) = true
      rw [leadsWith_append (c :: cs) r]
      rfl

theorem leadsWith_extend {l p : List Char} (r : List Char) (h : leadsWith l p = true) :
    leadsWith (l ++ r) p = true := by
  induction p generalizing l with
  | nil => exact leadsWith_nil_pat (l ++ r)
  | cons q qs ih =>
      cases l with
      | nil => simp [leadsWith] at h
      | cons c cs =>
          simp only [leadsWith, Bool.and_eq_true] at h
          simp only [List.cons_append, leadsWith, Bool.and_eq_true]
          exact ⟨h.1, ih h.2⟩

theorem containsSubL_extend {p l : List Char} (r : List Char) (h : containsSubL p l = true) :
    containsSubL p (l ++ r) = true := by
  induction l with
  | nil =>
      simp [containsSubL] at h
      subst h
      exact containsSubL_nil_pat r
  | cons c cs ih =>
      simp only [containsSubL, Bool.or_eq_true] at h
      rcases h with h | h
      · show containsSubL p (c :: (cs ++ r)) = true
        simp only [containsSubL, Bool.or_eq_true]
        exact Or.inl (leadsWith_extend r h)
      · show containsSubL p (c :: (cs ++ r)) = true
        simp only [containsSubL, Bool.or_eq_true]
        exact Or.inr (ih h)

theorem containsSubL_append_left {p l : List Char} (pre : List Char)
    (h : containsSubL p l = true) : containsSubL p (pre ++ l) = true := by
  induction pre with
  | nil => simpa using h
  | cons c cs ih =>
      show containsSubL p (c :: (cs ++ l)) = true
      simp only [containsSubL, Bool.or_eq_true]
      exact Or.inr ih

theorem strContains_self (s : String) : strContains s s = true := by
  have := containsSubL_self_append s.data []
  simpa [strContains] using this

theorem strContains_append_l (s t pat : String) (h : strContains s pat = true) :
    strContains (s ++ t) pat = true := by
  unfold strContains at h ⊢
  rw [String.data_append]
  exact containsSubL_extend t.data h

theorem strContains_append_r (s t pat : String) (h : strContains t pat = true) :
    strContains (s ++ t) pat = true := by
  unfold strContains at h ⊢
  rw [String.data_append]
  exact containsSubL_append_left s.data h

theorem countHumanMessages_append (l1 l2 : List Message) :
    countHumanMessages (l1 ++ l2) = countHumanMessages l1 + countHumanMessages l2 := by
  induction l1 with
  | nil => simp [countHumanMessages]
  | cons m rest ih =>
      show (if isUser m && m.parts.any isNonFeedbackText then 1 else 0) +
            countHumanMessages (rest ++ l2) =
          ((if isUser m && m.parts.any isNonFeedbackText then 1 else 0) +
            countHumanMessages rest) + countHumanMessages l2
      rw [ih]
      omega

/- Master lemmas: the value of a full reflection pass on each judge outcome. -/

theorem runReflection_complete_eq (o : Oracle) (st : PState) (sessionId : String)
    (msgs : List Message) (ex : Extracted) (judgeId : String) (resp js : String) (v : Verdict)
    (h : reachesJudge o st sessionId msgs ex judgeId)
    (h12 : o.judgeResponse judgeId = some resp)
    (h13 : jsonMatch resp = some js)
    (h14 : o.parseJson js = .ok v)
    (h15 : effectiveComplete v = true) :
    runReflection o st sessionId =
      Except.ok
        ({ st with
            activeReflections := removeSet sessionId (insertSet sessionId st.activeReflections),
            judgeSessionIds := removeSet judgeId (insertSet judgeId st.judgeSessionIds),
            lastReflectedMsgCount :=
              setEntry sessionId (countHumanMessages msgs) st.lastReflectedMsgCount,
            attempts := eraseEntry (getAttemptKey sessionId (countHumanMessages msgs)) st.attempts },
         [Action.createJudge, Action.promptTo judgeId (buildPrompt o.agentsFile ex),
          Action.saveReflection sessionId, Action.toast (completeToastMsg v) "success",
          Action.deleteJudge judgeId]) := by
  obtain ⟨h0, h1, h2, h3, h4, h5, h6, h7, h8, h9, h11⟩ := h
  unfold runReflection runReflectionBody judgePhase cleanupJudgeSession
  rw [if_neg h0]
  simp only [h1, h3, h9, h11, h12, h13, h14, h2, h4, h5, h6, h7, h8, h15,
    if_false, if_true, Bool.false_eq_true]
  simp

theorem runReflection_incomplete_eq (o : Oracle) (st : PState) (sessionId : String)
    (msgs : List Message) (ex : Extracted) (judgeId : String) (resp js : String) (v : Verdict)
    (h : reachesJudge o st sessionId msgs ex judgeId)
    (h12 : o.judgeResponse judgeId = some resp)
    (h13 : jsonMatch resp = some js)
    (h14 : o.parseJson js = .ok v)
    (h15 : effectiveComplete v = false)
    (h16 : o.promptAsync sessionId
        (incompleteFeedback v
          (lookupD st.attempts (getAttemptKey sessionId (countHumanMessages msgs)))
          (severityOf v)) = .ok ()) :
    runReflection o st sessionId =
      Except.ok
        ({ st with
            activeReflections := removeSet sessionId (insertSet sessionId st.activeReflections),
            judgeSessionIds := removeSet judgeId (insertSet judgeId st.judgeSessionIds),
            attempts :=
              setEntry (getAttemptKey sessionId (countHumanMessages msgs))
                (lookupD st.attempts (getAttemptKey sessionId (countHumanMessages msgs)) + 1)
                st.attempts },
         [Action.createJudge, Action.promptTo judgeId (buildPrompt o.agentsFile ex),
          Action.saveReflection sessionId,
          Action.toast
            (severityOf v ++ ": Incomplete (" ++
              toString (lookupD st.attempts (getAttemptKey sessionId (countHumanMessages msgs)) + 1) ++
              "/" ++ toString MAX_ATTEMPTS ++ ")")
            (if isBlockerOf v then "error" else "warning"),
          Action.promptTo sessionId
            (incompleteFeedback v
              (lookupD st.attempts (getAttemptKey sessionId (countHumanMessages msgs)))
              (severityOf v)),
          Action.deleteJudge judgeId]) := by
  obtain ⟨h0, h1, h2, h3, h4, h5, h6, h7, h8, h9, h11⟩ := h
  unfold runReflection runReflectionBody judgePhase cleanupJudgeSession
  rw [if_neg h0]
  simp only [h1, h3, h9, h11, h12, h13, h14, h2, h4, h5, h6, h7, h8, h15, h16,
    if_false, if_true, Bool.false_eq_true]
  simp

theorem runReflection_timeout_eq (o : Oracle) (st : PState) (sessionId : String)
    (msgs : List Message) (ex : Extracted) (judgeId : String)
    (h : reachesJudge o st sessionId msgs ex judgeId)
    (h12 : o.judgeResponse judgeId = none) :
    runReflection o st sessionId =
      Except.ok
        ({ st with
            activeReflections := removeSet sessionId (insertSet sessionId st.activeReflections),
            judgeSessionIds := removeSet judgeId (insertSet judgeId st.judgeSessionIds),
            lastReflectedMsgCount :=
              setEntry sessionId (countHumanMessages msgs) st.lastReflectedMsgCount },
         [Action.createJudge, Action.promptTo judgeId (buildPrompt o.agentsFile ex),
          Action.deleteJudge judgeId]) := by
  obtain ⟨h0, h1, h2, h3, h4, h5, h6, h7, h8, h9, h11⟩ := h
  unfold runReflection runReflectionBody judgePhase cleanupJudgeSession
  rw [if_neg h0]
  simp only [h1, h3, h9, h11, h12, h2, h4, h5, h6, h7, h8, if_false, if_true,
    Bool.false_eq_true]
  simp

theorem runReflection_parseerr_eq (o : Oracle) (st : PState) (sessionId : String)
    (msgs : List Message) (ex : Extracted) (judgeId : String) (resp : String)
    (h : reachesJudge o st sessionId msgs ex judgeId)
    (h12 : o.judgeResponse judgeId = some resp)
    (h13 : jsonMatch resp = none) :
    runReflection o st sessionId =
      Except.ok
        ({ st with
            activeReflections := removeSet sessionId (insertSet sessionId st.activeReflections),
            judgeSessionIds := removeSet judgeId (insertSet judgeId st.judgeSessionIds),
            lastReflectedMsgCount :=
              setEntry sessionId (countHumanMessages msgs) st.lastReflectedMsgCount },
         [Action.createJudge, Action.promptTo judgeId (buildPrompt o.agentsFile ex),
          Action.deleteJudge judgeId]) := by
  obtain ⟨h0, h1, h2, h3, h4, h5, h6, h7, h8, h9, h11⟩ := h
  unfold runReflection runReflectionBody judgePhase cleanupJudgeSession
  rw [if_neg h0]
  simp only [h1, h3, h9, h11, h12, h13, h2, h4, h5, h6, h7, h8, if_false, if_true,
    Bool.false_eq_true]
  simp

theorem runReflection_cap_eq (o : Oracle) (st : PState) (sessionId : String)
    (msgs : List Message)
    (h : reachesCapCheck o st sessionId msgs)
    (h7 : lookupD st.attempts (getAttemptKey sessionId (countHumanMessages msgs)) ≥ MAX_ATTEMPTS) :
    runReflection o st sessionId =
      Except.ok
        ({ st with
            activeReflections := removeSet sessionId (insertSet sessionId st.activeReflections),
            lastReflectedMsgCount :=
              setEntry sessionId (countHumanMessages msgs) st.lastReflectedMsgCount },
         [Action.toast ("Max attempts (" ++ toString MAX_ATTEMPTS ++ ") reached") "warning"]) := by
  obtain ⟨h0, h1, h2, h3, h4, h5, h6⟩ := h
  unfold runReflection runReflectionBody
  rw [if_neg h0]
  simp only [h1, h3, h2, h4, h5, h6, h7, if_false, if_true, Bool.false_eq_true]

/- Invariant-preservation lemmas. -/

theorem wasSessionAborted_mono {aborted : List JsVal} {sid : String} {msgs : List Message}
    {x : JsVal} (hx : x ∈ aborted) : x ∈ (wasSessionAborted aborted sid msgs).2 := by
  unfold wasSessionAborted
  repeat' split
  all_goals first | exact hx | exact mem_insertJs hx

theorem judgePhase_aborted_eq (o : Oracle) (st : PState) (sessionId : String) (n : Nat)
    (key : String) (c : Nat) (ex : Extracted) (judgeId : String) :
    (judgePhase o st sessionId n key c ex judgeId).2.1.abortedSessions = st.abortedSessions := by
  simp only [judgePhase]
  repeat' split
  all_goals rfl

theorem judgePhase_attempts_bound (o : Oracle) (st : PState) (sessionId : String) (n : Nat)
    (key : String) (c : Nat) (ex : Extracted) (judgeId : String)
    (hb : ∀ p ∈ st.attempts, p.2 ≤ MAX_ATTEMPTS) (hc : c < MAX_ATTEMPTS) :
    ∀ p ∈ (judgePhase o st sessionId n key c ex judgeId).2.1.attempts, p.2 ≤ MAX_ATTEMPTS := by
  simp only [judgePhase]
  repeat' split
  all_goals intro p hp
  all_goals
    first
      | exact hb p hp
      | exact hb p (mem_eraseEntry hp)
      | exact (mem_setEntry hp).elim (fun h => by rw [h]; exact hc) (fun h => hb p h)

theorem runReflectionBody_aborted_mono (o : Oracle) (st : PState) (sid : String) (x : JsVal)
    (hx : x ∈ st.abortedSessions) :
    x ∈ (runReflectionBody o st sid).2.1.abortedSessions := by
  simp only [runReflectionBody, cleanupJudgeSession]
  repeat' split
  all_goals
    first
      | exact hx
      | exact wasSessionAborted_mono hx
      | (dsimp only
         rw [judgePhase_aborted_eq]
         dsimp only
         exact wasSessionAborted_mono hx)

theorem runReflectionBody_attempts_bound (o : Oracle) (st : PState) (sid : String)
    (hb : ∀ p ∈ st.attempts, p.2 ≤ MAX_ATTEMPTS) :
    ∀ p ∈ (runReflectionBody o st sid).2.1.attempts, p.2 ≤ MAX_ATTEMPTS := by
  simp only [runReflectionBody, cleanupJudgeSession]
  repeat' split
  all_goals intro p hp
  all_goals
    first
      | exact hb p hp
      | (refine judgePhase_attempts_bound _ _ _ _ _ _ _ _ ?_ ?_ p hp
         · exact hb
         · omega)

theorem runReflection_ok_aborted_mono (o : Oracle) (st : PState) (sid : String) (x : JsVal)
    (hx : x ∈ st.abortedSessions) :
    ∀ q, runReflection o st sid = Except.ok q → x ∈ q.1.abortedSessions := by
  unfold runReflection
  by_cases h : sid ∈ st.activeReflections
  · rw [if_pos h]
    intro q hq
    cases hq
    exact hx
  · rw [if_neg h]
    intro q hq
    cases hq
    exact runReflectionBody_aborted_mono o _ sid x hx

theorem runReflection_ok_attempts_bound (o : Oracle) (st : PState) (sid : String)
    (hb : attemptsBounded st) :
    ∀ q, runReflection o st sid = Except.ok q → attemptsBounded q.1 := by
  unfold runReflection
  by_cases h : sid ∈ st.activeReflections
  · rw [if_pos h]
    intro q hq
    cases hq
    exact hb
  · rw [if_neg h]
    intro q hq
    cases hq
    intro p hp
    refine runReflectionBody_attempts_bound o _ sid ?_ p hp
    exact hb

theorem handleEvent_aborted_mono (o : Oracle) (st : PState) (ev : Event) (x : JsVal)
    (hx : x ∈ st.abortedSessions) :
    ∀ q, handleEvent o st ev = Except.ok q → x ∈ q.1.abortedSessions := by
  intro q hq
  unfold handleEvent at hq
  repeat' split at hq
  all_goals
    first
      | (cases hq; exact hx)
      | (cases hq; exact mem_insertJs hx)
      | exact runReflection_ok_aborted_mono o st _ x hx q hq

theorem handleEvent_attempts_bound (o : Oracle) (st : PState) (ev : Event)
    (hb : attemptsBounded st) :
    ∀ q, handleEvent o st ev = Except.ok q → attemptsBounded q.1 := by
  intro q hq
  unfold handleEvent at hq
  repeat' split at hq
  all_goals
    first
      | (cases hq; exact hb)
      | exact runReflection_ok_attempts_bound o st _ hb q hq

theorem stepState_aborted_mono (o : Oracle) (st : PState) (ev : Event) (x : JsVal)
    (hx : x ∈ st.abortedSessions) : x ∈ (stepState o st ev).abortedSessions := by
  unfold stepState
  cases hq : handleEvent o st ev with
  | ok q => exact handleEvent_aborted_mono o st ev x hx q hq
  | error e => exact hx

theorem stepState_attempts_bound (o : Oracle) (st : PState) (ev : Event)
    (hb : attemptsBounded st) : attemptsBounded (stepState o st ev) := by
  unfold stepState
  cases hq : handleEvent o st ev with
  | ok q => exact handleEvent_attempts_bound o st ev hb q hq
  | error e => exact hb

theorem runEvents_attempts_bound (evs : List (Oracle × Event)) (st : PState)
    (hb : attemptsBounded st) : attemptsBounded (runEvents evs st) := by
  induction evs generalizing st with
  | nil => exact hb
  | cons oe rest ih =>
      obtain ⟨o, ev⟩ := oe
      exact ih _ (stepState_attempts_bound o st ev hb)

theorem runReflection_isOk (o : Oracle) (st : PState) (sid : String) :
    ∃ p, runReflection o st sid = Except.ok p := by
  unfold runReflection
  by_cases h : sid ∈ st.activeReflections
  · rw [if_pos h]
    exact ⟨_, rfl⟩
  · rw [if_neg h]
    exact ⟨_, rfl⟩

/-- Claim C9: for every transcript and every behavior of the host client
(including RPC calls that throw, modelled as `Except.error` results from the
oracle), handling a session event never propagates an exception across the
event-handler boundary: `handleEvent` always returns a normal (`ok`) outcome,
because every failure inside a reflection pass is caught by the pass-local
catch (and converted into a no-op, a notification, or a retryable outcome). -/
theorem no_exception_escapes (o : Oracle) (st : PState) (ev : Event) :
    ∃ p, handleEvent o st ev = Except.ok p := by
  unfold handleEvent
  repeat' split
  all_goals first | exact ⟨_, rfl⟩ | exact runReflection_isOk o st _

/-- Claim C10: a `session.idle` event whose properties are missing, whose
`sessionID` field is absent, or whose `sessionID` is not a string is ignored
by the event handler: the state is unchanged and no action (no reflection
pass, no host RPC) is produced. -/
theorem malformed_idle_event_noop (o : Oracle) (st : PState) (e : Option ErrInfo) :
    handleEvent o st (Event.sessionIdle none) = Except.ok (st, []) ∧
    handleEvent o st (Event.sessionIdle (some ⟨none, e⟩)) = Except.ok (st, []) ∧
    (∀ t, handleEvent o st (Event.sessionIdle (some ⟨some (JsVal.nonStr t), e⟩)) =
      Except.ok (st, [])) :=
  ⟨rfl, rfl, fun _ => rfl⟩

/-- Claim C2: for every parsed verdict the effective completion flag equals
`verdict.complete AND severity != "BLOCKER"`, with severity defaulting to
`"MEDIUM"` when the field is absent; in particular a verdict with
`complete: true` and severity `"BLOCKER"` is treated as incomplete. -/
theorem effective_complete_policy :
    (∀ v : Verdict, effectiveComplete v = (v.complete && !(severityOf v == "BLOCKER"))) ∧
    (∀ (c : Bool) (f : Option String) (m n : Option (List String)),
        severityOf ⟨c, none, f, m, n⟩ = "MEDIUM") ∧
    (∀ (f : Option String) (m n : Option (List String)),
        effectiveComplete ⟨true, some "BLOCKER", f, m, n⟩ = false) :=
  ⟨fun _ => rfl, fun _ _ _ _ => rfl,
   fun _ _ _ => by simp [effectiveComplete, isBlockerOf, severityOf, jsOr]⟩

/-- Claim C1: for every verdict judged effectively complete, the pass emits a
success notification only, submits no prompt/chat message into the original
session, marks the generation settled (`lastReflectedMsgCount` is set to the
current human-message count) and deletes the attempt record for that key. -/
theorem complete_verdict_notifies_only (o : Oracle) (st : PState) (sessionId : String)
    (msgs : List Message) (ex : Extracted) (judgeId : String) (resp js : String) (v : Verdict)
    (h : reachesJudge o st sessionId msgs ex judgeId)
    (h12 : o.judgeResponse judgeId = some resp)
    (h13 : jsonMatch resp = some js)
    (h14 : o.parseJson js = .ok v)
    (h15 : effectiveComplete v = true)
    (hne : judgeId ≠ sessionId) :
    List.lookup sessionId (runOutcome o st sessionId).1.lastReflectedMsgCount =
      some (countHumanMessages msgs) ∧
    List.lookup (getAttemptKey sessionId (countHumanMessages msgs))
      (runOutcome o st sessionId).1.attempts = none ∧
    List.filter isToastAct (runOutcome o st sessionId).2 =
      [Action.toast (completeToastMsg v) "success"] ∧
    List.filter (promptToPred sessionId) (runOutcome o st sessionId).2 = [] := by
  have hm := runReflection_complete_eq o st sessionId msgs ex judgeId resp js v h h12 h13 h14 h15
  unfold runOutcome
  rw [hm]
  refine ⟨?_, ?_, ?_, ?_⟩
  · exact lookup_setEntry_self _ _ _
  · exact lookup_eraseEntry_self _ _
  · simp [List.filter, isToastAct]
  · have hbeq : (judgeId == sessionId) = false := beq_eq_false_iff_ne.mpr hne
    simp [List.filter, promptToPred, hbeq]

theorem complete_verdict_notifies_only_witness :
    List.lookup "s" (runOutcome baseOracle initState "s").1.lastReflectedMsgCount = some 1 ∧
    List.lookup (getAttemptKey "s" 1) (runOutcome baseOracle initState "s").1.attempts = none ∧
    List.filter isToastAct (runOutcome baseOracle initState "s").2 =
      [Action.toast "Task complete ✓" "success"] ∧
    List.filter (promptToPred "s") (runOutcome baseOracle initState "s").2 = [] := by
  have h := complete_verdict_notifies_only baseOracle initState "s" sampleMsgs
    ⟨"write a function that adds two numbers", "done, see add.py", ""⟩ "judge-1"
    "\x7b\"complete\": true, \"severity\": \"NONE\"\x7d"
    "\x7b\"complete\": true, \"severity\": \"NONE\"\x7d" completeVerdict
    ⟨by simp [initState], rfl, by decide, rfl, rfl, by decide, by decide, by decide, rfl, rfl, rfl⟩
    rfl (by decide) rfl (by decide) (by decide)
  exact h

/-- Claim C3: an idle event for a known judge session, an aborted session, or
a session with a reflection already in flight is a no-op (state unchanged, no
action, hence no judge session created, no counter changed, no message sent);
moreover a freshly created judge id is in the known-judge set the moment it is
inserted (the code inserts it immediately after creation returns, before any
further await), and at that intermediate state an idle event for the judge id
is likewise a no-op. -/
theorem idle_guard_noop :
    (∀ (o : Oracle) (st : PState) (p : EventProps) (sid : String),
        p.sessionID = some (JsVal.jstr sid) → sid ≠ "" → sid ∈ st.judgeSessionIds →
        handleEvent o st (Event.sessionIdle (some p)) = Except.ok (st, [])) ∧
    (∀ (o : Oracle) (st : PState) (p : EventProps) (sid : String),
        p.sessionID = some (JsVal.jstr sid) → sid ≠ "" →
        JsVal.jstr sid ∈ st.abortedSessions →
        handleEvent o st (Event.sessionIdle (some p)) = Except.ok (st, [])) ∧
    (∀ (o : Oracle) (st : PState) (p : EventProps) (sid : String),
        p.sessionID = some (JsVal.jstr sid) → sid ≠ "" → sid ∈ st.activeReflections →
        handleEvent o st (Event.sessionIdle (some p)) = Except.ok (st, [])) ∧
    (∀ (o : Oracle) (st : PState) (sid : String), sid ∈ st.activeReflections →
        runReflection o st sid = Except.ok (st, [])) ∧
    (∀ (st : PState) (judgeId : String), judgeId ∈ insertSet judgeId st.judgeSessionIds) ∧
    (∀ (o : Oracle) (st : PState) (p : EventProps) (judgeId : String),
        p.sessionID = some (JsVal.jstr judgeId) → judgeId ≠ "" →
        handleEvent o { st with judgeSessionIds := insertSet judgeId st.judgeSessionIds }
            (Event.sessionIdle (some p)) =
          Except.ok ({ st with judgeSessionIds := insertSet judgeId st.judgeSessionIds }, [])) := by
  have hact : ∀ (o : Oracle) (st : PState) (sid : String), sid ∈ st.activeReflections →
      runReflection o st sid = Except.ok (st, []) := by
    intro o st sid hs
    unfold runReflection
    rw [if_pos hs]
  have hj : ∀ (o : Oracle) (st : PState) (p : EventProps) (sid : String),
      p.sessionID = some (JsVal.jstr sid) → sid ≠ "" → sid ∈ st.judgeSessionIds →
      handleEvent o st (Event.sessionIdle (some p)) = Except.ok (st, []) := by
    intro o st p sid hsid hne hjm
    simp only [handleEvent, hsid]
    rw [if_neg hne]
    by_cases hab : JsVal.jstr sid ∈ st.abortedSessions
    · rw [if_pos hab]
    · rw [if_neg hab, if_pos hjm]
  refine ⟨hj, ?_, ?_, hact, fun st j => self_mem_insertSet j st.judgeSessionIds, ?_⟩
  · intro o st p sid hsid hne hab
    simp only [handleEvent, hsid]
    rw [if_neg hne, if_pos hab]
  · intro o st p sid hsid hne hin
    simp only [handleEvent, hsid]
    rw [if_neg hne]
    by_cases hab : JsVal.jstr sid ∈ st.abortedSessions
    · rw [if_pos hab]
    · rw [if_neg hab]
      by_cases hjm : sid ∈ st.judgeSessionIds
      · rw [if_pos hjm]
      · rw [if_neg hjm]
        exact hact o st sid hin
  · intro o st p judgeId hsid hne
    exact hj o _ p judgeId hsid hne (self_mem_insertSet judgeId st.judgeSessionIds)

theorem idle_guard_noop_witness :
    handleEvent baseOracle { initState with judgeSessionIds := ["j"] }
        (Event.sessionIdle (some ⟨some (JsVal.jstr "j"), none⟩)) =
      Except.ok ({ initState with judgeSessionIds := ["j"] }, []) ∧
    handleEvent baseOracle { initState with abortedSessions := [JsVal.jstr "a"] }
        (Event.sessionIdle (some ⟨some (JsVal.jstr "a"), none⟩)) =
      Except.ok ({ initState with abortedSessions := [JsVal.jstr "a"] }, []) ∧
    runReflection baseOracle { initState with activeReflections := ["s"] } "s" =
      Except.ok ({ initState with activeReflections := ["s"] }, []) := by
  refine ⟨?_, ?_, ?_⟩
  · exact idle_guard_noop.1 baseOracle _ _ "j" rfl (by decide) (by decide)
  · exact idle_guard_noop.2.1 baseOracle _ _ "a" rfl (by decide) (by decide)
  · exact idle_guard_noop.2.2.2.1 baseOracle _ "s" (by decide)

/-- Claim C4 counterexample: on a judge timeout the code does not leave the
original task state unchanged — it marks the generation settled.  Starting
from the empty state, a pass over a two-message transcript whose judge times
out sets `lastReflectedMsgCount` for the session to the current human-message
count (1), whereas it was unset before. -/
theorem timeout_marks_settled_cex :
    List.lookup "s" (runOutcome timeoutOracle initState "s").1.lastReflectedMsgCount = some 1 ∧
    List.lookup "s" initState.lastReflectedMsgCount = none := by
  constructor
  · rfl
  · rfl

/-- Claim C4 (amended): on a judge timeout (no completed response within the
budget) or a parse error (no JSON object in the judge reply), no attempt is
consumed (the attempts map is unchanged), but the generation IS marked
settled: `lastReflectedMsgCount` is set to the current human-message count,
so the same task generation is not re-judged on later idle events until a new
human message raises the count. -/
theorem timeout_parse_error_settles_without_attempt (o : Oracle) (st : PState)
    (sessionId : String) (msgs : List Message) (ex : Extracted) (judgeId : String)
    (h : reachesJudge o st sessionId msgs ex judgeId) :
    (o.judgeResponse judgeId = none →
        (runOutcome o st sessionId).1.attempts = st.attempts ∧
        List.lookup sessionId (runOutcome o st sessionId).1.lastReflectedMsgCount =
          some (countHumanMessages msgs) ∧
        countHumanMessages msgs ≤
          lookupD (runOutcome o st sessionId).1.lastReflectedMsgCount sessionId) ∧
    (∀ resp, o.judgeResponse judgeId = some resp → jsonMatch resp = none →
        (runOutcome o st sessionId).1.attempts = st.attempts ∧
        List.lookup sessionId (runOutcome o st sessionId).1.lastReflectedMsgCount =
          some (countHumanMessages msgs) ∧
        countHumanMessages msgs ≤
          lookupD (runOutcome o st sessionId).1.lastReflectedMsgCount sessionId) := by
  constructor
  · intro h12
    have hm := runReflection_timeout_eq o st sessionId msgs ex judgeId h h12
    unfold runOutcome
    rw [hm]
    refine ⟨rfl, lookup_setEntry_self _ _ _, ?_⟩
    unfold lookupD
    rw [lookup_setEntry_self]
    simp
  · intro resp h12 h13
    have hm := runReflection_parseerr_eq o st sessionId msgs ex judgeId resp h h12 h13
    unfold runOutcome
    rw [hm]
    refine ⟨rfl, lookup_setEntry_self _ _ _, ?_⟩
    unfold lookupD
    rw [lookup_setEntry_self]
    simp

theorem timeout_parse_error_settles_without_attempt_witness :
    (runOutcome timeoutOracle initState "s").1.attempts = [] ∧
    List.lookup "s" (runOutcome timeoutOracle initState "s").1.lastReflectedMsgCount = some 1 := by
  have h := (timeout_parse_error_settles_without_attempt timeoutOracle initState "s" sampleMsgs
    ⟨"write a function that adds two numbers", "done, see add.py", ""⟩ "judge-1"
    ⟨by simp [initState], rfl, by decide, rfl, rfl, by decide, by decide, by decide, rfl, rfl, rfl⟩).1
    rfl
  exact ⟨h.1, h.2.1⟩

/-- Claim C5: for every verdict judged not effectively complete, the pass
injects exactly one feedback message into the original session — whose text
contains the verdict's feedback, the bulleted `missing` and `next_actions`
lists, and a request to continue — increments the attempt counter for the
current `(sessionId, humanMsgCount)` key by one, and does not mark the
generation settled. -/
theorem incomplete_verdict_feedback (o : Oracle) (st : PState) (sessionId : String)
    (msgs : List Message) (ex : Extracted) (judgeId : String) (resp js : String) (v : Verdict)
    (c : Nat) (f : String)
    (h : reachesJudge o st sessionId msgs ex judgeId)
    (h12 : o.judgeResponse judgeId = some resp)
    (h13 : jsonMatch resp = some js)
    (h14 : o.parseJson js = .ok v)
    (h15 : effectiveComplete v = false)
    (hc : lookupD st.attempts (getAttemptKey sessionId (countHumanMessages msgs)) = c)
    (h16 : o.promptAsync sessionId (incompleteFeedback v c (severityOf v)) = .ok ())
    (hne : judgeId ≠ sessionId)
    (hf : v.feedback = some f) (hfne : f ≠ "") :
    List.filter (promptToPred sessionId) (runOutcome o st sessionId).2 =
      [Action.promptTo sessionId (incompleteFeedback v c (severityOf v))] ∧
    strContains (incompleteFeedback v c (severityOf v)) f = true ∧
    (∀ l, v.missing = some l → l.length ≠ 0 →
        strContains (incompleteFeedback v c (severityOf v))
          ("\n### Missing\n" ++ bullets l) = true) ∧
    (∀ l, v.next_actions = some l → l.length ≠ 0 →
        strContains (incompleteFeedback v c (severityOf v))
          ("\n### Next Actions\n" ++ bullets l) = true) ∧
    strContains (incompleteFeedback v c (severityOf v))
      "Please address the above and continue." = true ∧
    List.lookup (getAttemptKey sessionId (countHumanMessages msgs))
      (runOutcome o st sessionId).1.attempts = some (c + 1) ∧
    (runOutcome o st sessionId).1.lastReflectedMsgCount = st.lastReflectedMsgCount := by
  subst hc
  have hm := runReflection_incomplete_eq o st sessionId msgs ex judgeId resp js v h h12 h13 h14
    h15 h16
  have hfb : jsOr v.feedback "Please review and complete the task." = f := by
    rw [hf]
    simp [jsOr, hfne]
  refine ⟨?_, ?_, ?_, ?_, ?_, ?_, ?_⟩
  · unfold runOutcome
    rw [hm]
    have hbeq : (judgeId == sessionId) = false := beq_eq_false_iff_ne.mpr hne
    have hbeq2 : (sessionId == sessionId) = true := beq_self_eq_true sessionId
    simp [List.filter, promptToPred, hbeq, hbeq2]
  · unfold incompleteFeedback
    rw [hfb]
    apply strContains_append_l
    apply strContains_append_l
    apply strContains_append_l
    apply strContains_append_r
    exact strContains_self f
  · intro l hl hlen
    have hms : missingSection v = "\n### Missing\n" ++ bullets l := by
      unfold missingSection
      rw [hl]
      simp [hlen]
    unfold incompleteFeedback
    rw [hms]
    apply strContains_append_l
    apply strContains_append_l
    apply strContains_append_r
    exact strContains_self _
  · intro l hl hlen
    have hna : nextActionsSection v = "\n### Next Actions\n" ++ bullets l := by
      unfold nextActionsSection
      rw [hl]
      simp [hlen]
    unfold incompleteFeedback
    rw [hna]
    apply strContains_append_l
    apply strContains_append_r
    exact strContains_self _
  · have hfoot : ("\n\nPlease address the above and continue." : String) =
        "\n\n" ++ "Please address the above and continue." := by decide
    unfold incompleteFeedback
    rw [hfoot]
    apply strContains_append_r
    apply strContains_append_r
    exact strContains_self _
  · unfold runOutcome
    rw [hm]
    exact lookup_setEntry_self _ _ _
  · unfold runOutcome
    rw [hm]

theorem incomplete_verdict_feedback_witness :
    List.filter (promptToPred "s") (runOutcome incompleteOracle initState "s").2 =
      [Action.promptTo "s" (incompleteFeedback incompleteVerdict 0 (severityOf incompleteVerdict))] ∧
    List.lookup (getAttemptKey "s" 1) (runOutcome incompleteOracle initState "s").1.attempts =
      some 1 ∧
    strContains (incompleteFeedback incompleteVerdict 0 (severityOf incompleteVerdict))
      "no test evidence shown" = true := by
  have h := incomplete_verdict_feedback incompleteOracle initState "s" sampleMsgs
    ⟨"write a function that adds two numbers", "done, see add.py", ""⟩ "judge-1"
    "\x7b\"complete\": true, \"severity\": \"NONE\"\x7d"
    "\x7b\"complete\": true, \"severity\": \"NONE\"\x7d" incompleteVerdict 0
    "no test evidence shown"
    ⟨by simp [initState], rfl, by decide, rfl, rfl, by decide, by decide, by decide, rfl, rfl, rfl⟩
    rfl (by decide) rfl (by decide) rfl rfl (by decide) rfl (by decide)
  exact ⟨h.1, h.2.2.2.2.2.1, h.2.1⟩

/-- Claim C6: abortion detection and stickiness: `wasSessionAborted` returns
true iff the id is already in the aborted set, or some assistant message
carries an error named `MessageAbortedError` or whose message text
case-insensitively contains `"abort"`; on detection the id is memoized into
the returned aborted set; and no event handling ever removes an id from the
aborted set. -/
theorem aborted_sticky :
    (∀ (aborted : List JsVal) (sid : String) (msgs : List Message),
        ((wasSessionAborted aborted sid msgs).1 = true ↔
          (JsVal.jstr sid ∈ aborted ∨ msgs.any msgHasAbortError = true))) ∧
    (∀ (aborted : List JsVal) (sid : String) (msgs : List Message),
        (wasSessionAborted aborted sid msgs).1 = true →
          JsVal.jstr sid ∈ (wasSessionAborted aborted sid msgs).2) ∧
    (∀ (m : Message) (e : ErrInfo), errorOf m = some e → isAssistant m = true →
        msgHasAbortError m =
          ((e.name == some "MessageAbortedError") ||
            strContains (strToLower (errMsgText e)) "abort")) ∧
    (∀ (o : Oracle) (st : PState) (ev : Event) (x : JsVal),
        x ∈ st.abortedSessions → x ∈ (stepState o st ev).abortedSessions) := by
  refine ⟨?_, ?_, ?_, fun o st ev x hx => stepState_aborted_mono o st ev x hx⟩
  · intro aborted sid msgs
    unfold wasSessionAborted
    by_cases h1 : JsVal.jstr sid ∈ aborted
    · simp [h1]
    · by_cases h2 : msgs.any msgHasAbortError = true
      · simp [h1, h2]
      · simp [h1, h2]
  · intro aborted sid msgs h
    unfold wasSessionAborted at h ⊢
    by_cases h1 : JsVal.jstr sid ∈ aborted
    · simp [h1]
    · by_cases h2 : msgs.any msgHasAbortError = true
      · simp [h1, h2, self_mem_insertJs]
      · simp [h1, h2] at h
  · intro m e he hass
    unfold msgHasAbortError
    rw [hass, he]
    simp

theorem aborted_sticky_witness :
    JsVal.jstr "s" ∈ (wasSessionAborted [] "s" abortMsgs).2 ∧
    (wasSessionAborted [] "s" abortMsgs).1 = true := by
  have h2 : (wasSessionAborted [] "s" abortMsgs).1 = true := by decide
  exact ⟨aborted_sticky.2.1 [] "s" abortMsgs h2, h2⟩

/-- Claim C7: for a fixed `(sessionId, humanMsgCount)` key each incomplete
verdict increments the counter by exactly one; once the counter has reached
`MAX_ATTEMPTS = 3` a pass for that key creates no judge session and emits a
warning notification instead; and over every event sequence from the initial
state every attempt counter stays at most `MAX_ATTEMPTS`. -/
theorem attempt_cap :
    (∀ (o : Oracle) (st : PState) (sessionId : String) (msgs : List Message) (ex : Extracted)
        (judgeId : String) (resp js : String) (v : Verdict) (c : Nat),
        reachesJudge o st sessionId msgs ex judgeId →
        o.judgeResponse judgeId = some resp → jsonMatch resp = some js →
        o.parseJson js = .ok v → effectiveComplete v = false →
        lookupD st.attempts (getAttemptKey sessionId (countHumanMessages msgs)) = c →
        o.promptAsync sessionId (incompleteFeedback v c (severityOf v)) = .ok () →
        List.lookup (getAttemptKey sessionId (countHumanMessages msgs))
          (runOutcome o st sessionId).1.attempts = some (c + 1)) ∧
    (∀ (o : Oracle) (st : PState) (sessionId : String) (msgs : List Message),
        reachesCapCheck o st sessionId msgs →
        lookupD st.attempts (getAttemptKey sessionId (countHumanMessages msgs)) ≥ MAX_ATTEMPTS →
        (runOutcome o st sessionId).2 =
          [Action.toast ("Max attempts (" ++ toString MAX_ATTEMPTS ++ ") reached") "warning"] ∧
        List.filter isCreateJudge (runOutcome o st sessionId).2 = [] ∧
        (runOutcome o st sessionId).1.attempts = st.attempts) ∧
    (∀ evs : List (Oracle × Event), attemptsBounded (runEvents evs initState)) := by
  refine ⟨?_, ?_, ?_⟩
  · intro o st sessionId msgs ex judgeId resp js v c h h12 h13 h14 h15 hc h16
    subst hc
    have hm := runReflection_incomplete_eq o st sessionId msgs ex judgeId resp js v h h12 h13
      h14 h15 h16
    unfold runOutcome
    rw [hm]
    exact lookup_setEntry_self _ _ _
  · intro o st sessionId msgs h h7
    have hm := runReflection_cap_eq o st sessionId msgs h h7
    unfold runOutcome
    rw [hm]
    refine ⟨rfl, ?_, rfl⟩
    simp [List.filter, isCreateJudge]
  · intro evs
    apply runEvents_attempts_bound
    intro p hp
    simp [initState] at hp

theorem attempt_cap_witness :
    List.lookup (getAttemptKey "s" 1) (runOutcome incompleteOracle initState "s").1.attempts =
      some 1 ∧
    (runOutcome baseOracle { initState with attempts := [("s:1", 3)] } "s").2 =
      [Action.toast ("Max attempts (" ++ toString MAX_ATTEMPTS ++ ") reached") "warning"] := by
  constructor
  · exact attempt_cap.1 incompleteOracle initState "s" sampleMsgs
      ⟨"write a function that adds two numbers", "done, see add.py", ""⟩ "judge-1"
      "\x7b\"complete\": true, \"severity\": \"NONE\"\x7d"
      "\x7b\"complete\": true, \"severity\": \"NONE\"\x7d" incompleteVerdict 0
      ⟨by simp [initState], rfl, by decide, rfl, rfl, by decide, by decide, by decide, rfl, rfl,
        rfl⟩
      rfl (by decide) rfl (by decide) rfl rfl
  · exact (attempt_cap.2.1 baseOracle { initState with attempts := [("s:1", 3)] } "s" sampleMsgs
      ⟨by simp [initState], rfl, by decide, rfl, rfl, by decide, by decide⟩ (by decide)).1

/-- Claim C8: appending one new user message whose text does not carry the
feedback marker increases the human-message count by exactly one, while a
message with no genuine (non-marker) text part leaves the count unchanged —
and the injected feedback message always carries the marker; reading the
attempt counter at the fresh `(sessionId, humanMsgCount)` key of a new
generation yields 0. -/
theorem generation_reset :
    (∀ (msgs : List Message) (m : Message),
        isUser m = true → m.parts.any isNonFeedbackText = true →
        countHumanMessages (msgs ++ [m]) = countHumanMessages msgs + 1) ∧
    (∀ (msgs : List Message) (m : Message),
        m.parts.any isNonFeedbackText = false →
        countHumanMessages (msgs ++ [m]) = countHumanMessages msgs) ∧
    (∀ (v : Verdict) (c : Nat) (sev : String),
        strContains (incompleteFeedback v c sev) "## Reflection:" = true) ∧
    (∀ (attempts : List (String × Nat)) (sid : String) (n : Nat),
        (∀ p ∈ attempts, ∀ c, p.1 = getAttemptKey sid c → c ≤ n) →
        lookupD attempts (getAttemptKey sid (n + 1)) = 0) := by
  refine ⟨?_, ?_, ?_, ?_⟩
  · intro msgs m hu ha
    rw [countHumanMessages_append]
    simp [countHumanMessages, hu, ha]
  · intro msgs m ha
    rw [countHumanMessages_append]
    simp [countHumanMessages, ha]
  · intro v c sev
    unfold incompleteFeedback
    have hsplit : ("## Reflection: Task Incomplete (" : String) =
        "## Reflection:" ++ " Task Incomplete (" := by decide
    rw [hsplit]
    repeat' apply strContains_append_l
    exact strContains_self _
  · intro attempts sid n hkeys
    unfold lookupD
    cases hl : List.lookup (getAttemptKey sid (n + 1)) attempts with
    | none => rfl
    | some v =>
        exfalso
        have hmem := lookup_mem hl
        have := hkeys _ hmem (n + 1) rfl
        omega

theorem generation_reset_witness :
    countHumanMessages (sampleMsgs ++ [mkUserMsg "now add unit tests"]) =
      countHumanMessages sampleMsgs + 1 ∧
    lookupD [] (getAttemptKey "s" 2) = 0 := by
  constructor
  · exact generation_reset.1 sampleMsgs (mkUserMsg "now add unit tests") (by decide) (by decide)
  · exact generation_reset.2.2.2 [] "s" 1 (fun p hp => absurd hp (by simp))

end Reflection
